import Mathlib

/-!
Verification development for the tsynamo expression/query-builder core.

The definitions below are a shallow embedding of the repository's code:

* `ReturnValuesOptions`, `ReturnValuesNode` are translated from
  `src/nodes/returnValuesNode.ts`.
* `UpdateExpression` is translated from `src/nodes/updateExpression.ts`.
* `PutItemQueryBuilder` and its methods `conditionExpression`,
  `orConditionExpression`, `item`, `returnValues`, `compile` are translated
  from `src/queryBuilders/putItemQueryBuilder.ts`.
* The expression node model, the expression builder, the query compiler, the
  update builder calls and the `preventAwait` guard are not included in the
  source tree that was provided (only their callers are), so they are modelled
  from the specification; each such definition carries a doc comment starting
  with `Modelled from the spec:`.

TypeScript objects are embedded as Lean structures; object spread
(`{...node, field: x}`) becomes a structure update; JavaScript allocation of a
new builder by `new PutItemQueryBuilder(...)` is modelled, where the claims are
about heap effects, by a store (`BuilderStore`) of builder values in which a
method call allocates a fresh slot and never writes to an existing one, exactly
as the translated method bodies do.
-/

/-- Literal attribute values stored in items and referenced by expressions.
The embedding keeps the heterogeneous JavaScript literals as a closed sum. -/
inductive DbValue where
  | str (s : String)
  | num (n : Int)
  | boolean (b : Bool)
  | null
deriving DecidableEq, Repr

/-- Comparison operators of comparator condition nodes (spec section 3:
op is one of =, <>, <, <=, >, >=). -/
inductive ComparatorOp where
  | eq
  | ne
  | lt
  | le
  | gt
  | ge
deriving DecidableEq, Repr

/-- Rendered text of a comparator operator. -/
def ComparatorOp.render : ComparatorOp → String
  | .eq => "="
  | .ne => "<>"
  | .lt => "<"
  | .le => "<="
  | .gt => ">"
  | .ge => ">="

/-- Unary attribute predicates (spec section 3: fn is exists or not_exists). -/
inductive AttributeFn where
  | attributeExists
  | attributeNotExists
deriving DecidableEq, Repr

/-- Rendered text of an attribute function. -/
def AttributeFn.render : AttributeFn → String
  | .attributeExists => "attribute_exists"
  | .attributeNotExists => "attribute_not_exists"

/-- Logical connector tagging each entry of a condition group relative to its
predecessor (spec section 3: connector is AND or OR). -/
inductive JoinType where
  | and
  | or
deriving DecidableEq, Repr

/-- Rendered keyword of a connector. -/
def JoinType.render : JoinType → String
  | .and => "AND"
  | .or => "OR"

mutual
/-- Modelled from the spec: the condition expression node model of
section 3 (the node source files are not under `src/`): comparator,
attribute-function, begins-with, contains, between, not, and a group of
connector-tagged children. -/
inductive ExprNode where
  | comparator (path : String) (op : ComparatorOp) (value : DbValue)
  | attributeFunction (path : String) (fn : AttributeFn)
  | beginsWith (path : String) (substr : String)
  | containsCond (path : String) (value : DbValue)
  | between (path : String) (lower : DbValue) (upper : DbValue)
  | notCond (child : ExprNode)
  | group (children : ExprSeq)
/-- Modelled from the spec: the ordered sequence of (connector, node) pairs
held by a condition group. -/
inductive ExprSeq where
  | nil
  | cons (connector : JoinType) (e : ExprNode) (rest : ExprSeq)
end

/-- Appending one sequence of condition entries after another. -/
def ExprSeq.append : ExprSeq → ExprSeq → ExprSeq
  | .nil, ys => ys
  | .cons c e r, ys => .cons c e (r.append ys)

/-- The expression node held by a builder: a group of connector-tagged
children (spec section 3, Group). -/
structure ExpressionNode where
  expressions : ExprSeq

/-- From `src/nodes/returnValuesNode.ts`: the five-valued return-values
selector enum. -/
inductive ReturnValuesOptions where
  | NONE
  | ALL_OLD
  | UPDATED_OLD
  | ALL_NEW
  | UPDATED_NEW
deriving DecidableEq, Repr

/-- From `src/nodes/returnValuesNode.ts`: the return-values node wrapping a
selector. -/
structure ReturnValuesNode where
  option : ReturnValuesOptions
deriving DecidableEq, Repr

/-- Table identifier node, as constructed by the query creator
(`src/unnamed/part_001`). -/
structure TableNode where
  table : String
deriving DecidableEq, Repr

/-- Item payload node, as constructed by `PutItemQueryBuilder.item`
(`src/unnamed/part_000`, lines 220-233); the payload itself is an attribute
name to literal mapping. -/
structure ItemNode where
  item : List (String × DbValue)
deriving DecidableEq, Repr

/-- Modelled from the spec: the put operation AST node (`src/nodes/putNode.ts`
is not under `src/`); its fields are exactly those read and written by
`PutItemQueryBuilder` (`src/unnamed/part_000`): a table identifier, a
condition expression group, an optional item payload and an optional
return-values selector. -/
structure PutNode where
  table : TableNode
  conditionExpression : ExpressionNode
  item : Option ItemNode
  returnValues : Option ReturnValuesNode

/-- Modelled from the spec: the expression builder
(`src/queryBuilders/expressionBuilder.ts` is not under `src/`) wraps the
growing expression node (spec section 4.2). -/
structure ExpressionBuilder where
  node : ExpressionNode

/-- Modelled from the spec: the argument shapes accepted by a condition call,
dispatched by shape/arity (spec section 4.2): a comparator triple, an
attribute-function pair, begins-with, contains, between, a `not` wrapper of
another shape, and a callback that receives a brand-new empty builder scope
and yields a nested group. -/
inductive ExprArgs where
  | comparatorArg (path : String) (op : ComparatorOp) (value : DbValue)
  | attributeFuncArg (path : String) (fn : AttributeFn)
  | beginsWithArg (path : String) (substr : String)
  | containsArg (path : String) (value : DbValue)
  | betweenArg (path : String) (lower : DbValue) (upper : DbValue)
  | notArg (inner : ExprArgs)
  | builderArg (callback : ExpressionBuilder → ExpressionBuilder)

/-- Exposes the accumulated node to the operation builder layer (spec
section 4.2, `_getNode`). -/
def ExpressionBuilder._getNode (eB : ExpressionBuilder) : ExpressionNode :=
  eB.node

/-- Modelled from the spec: turning one argument shape into the condition
node it denotes (spec section 4.2); the callback shape receives a fresh empty
builder scope and its accumulated group becomes one nested node. -/
def argsToNode : ExprArgs → ExprNode
  | .comparatorArg p o v => .comparator p o v
  | .attributeFuncArg p f => .attributeFunction p f
  | .beginsWithArg p s => .beginsWith p s
  | .containsArg p v => .containsCond p v
  | .betweenArg p lo hi => .between p lo hi
  | .notArg inner => .notCond (argsToNode inner)
  | .builderArg f =>
      .group ((f (ExpressionBuilder.mk (ExpressionNode.mk ExprSeq.nil)))._getNode.expressions)

/-- Modelled from the spec: `expression` appends a new condition node to the
current group with connector AND and returns a new builder (spec
section 4.2). -/
def ExpressionBuilder.expression (eB : ExpressionBuilder) (args : ExprArgs) :
    ExpressionBuilder :=
  ExpressionBuilder.mk
    (ExpressionNode.mk
      (eB.node.expressions.append (ExprSeq.cons JoinType.and (argsToNode args) ExprSeq.nil)))

/-- Modelled from the spec: `orExpression` appends a new condition node to the
current group with connector OR and returns a new builder (spec
section 4.2). -/
def ExpressionBuilder.orExpression (eB : ExpressionBuilder) (args : ExprArgs) :
    ExpressionBuilder :=
  ExpressionBuilder.mk
    (ExpressionNode.mk
      (eB.node.expressions.append (ExprSeq.cons JoinType.or (argsToNode args) ExprSeq.nil)))

/-- The put-item operation builder (`src/unnamed/part_000`, class
`PutItemQueryBuilder`). Its props also carry the transport client and the
query compiler object; both are stateless collaborators (the compiler is a
pure function embedded below as `QueryCompiler.compile`), so only the AST
node is carried here. -/
structure PutItemQueryBuilder where
  node : PutNode

/-- From `src/unnamed/part_000` lines 184-200: build an expression builder
over the current condition group, append via `expression` (connector AND),
and return a new builder whose node is the old node with only the
`conditionExpression` field replaced. -/
def PutItemQueryBuilder.conditionExpression (b : PutItemQueryBuilder) (args : ExprArgs) :
    PutItemQueryBuilder :=
  let eB := ExpressionBuilder.mk b.node.conditionExpression
  let expressionNode := (eB.expression args)._getNode
  PutItemQueryBuilder.mk { b.node with conditionExpression := expressionNode }

/-- From `src/unnamed/part_000` lines 202-218: same as `conditionExpression`
but appends via `orExpression` (connector OR). -/
def PutItemQueryBuilder.orConditionExpression (b : PutItemQueryBuilder) (args : ExprArgs) :
    PutItemQueryBuilder :=
  let eB := ExpressionBuilder.mk b.node.conditionExpression
  let expressionNode := (eB.orExpression args)._getNode
  PutItemQueryBuilder.mk { b.node with conditionExpression := expressionNode }

/-- From `src/unnamed/part_000` lines 220-233: return a new builder whose node
is the old node with only the `item` field replaced by a fresh item node. -/
def PutItemQueryBuilder.item (b : PutItemQueryBuilder) (it : List (String × DbValue)) :
    PutItemQueryBuilder :=
  PutItemQueryBuilder.mk { b.node with item := some (ItemNode.mk it) }

/-- From `src/unnamed/part_000` lines 235-248: return a new builder whose node
is the old node with only the `returnValues` field replaced by a fresh
return-values node holding the given option verbatim. The TypeScript
signature statically narrows the accepted options to NONE and ALL_OLD
(an `Extract` type); the runtime function stores whichever option it
receives, which is what this definition embeds. The static narrowing is
captured separately by `TypedReachable`. -/
def PutItemQueryBuilder.returnValues (b : PutItemQueryBuilder) (o : ReturnValuesOptions) :
    PutItemQueryBuilder :=
  PutItemQueryBuilder.mk { b.node with returnValues := some (ReturnValuesNode.mk o) }

/-- Modelled from the spec: a fresh put builder as handed out by the query
creator, mirroring `getItemFrom` in `src/unnamed/part_001`: a node holding
only the table identifier, an empty condition group, and no item or
return-values selector yet. -/
def putItemFrom (table : String) : PutItemQueryBuilder :=
  PutItemQueryBuilder.mk
    { table := TableNode.mk table
      conditionExpression := ExpressionNode.mk ExprSeq.nil
      item := none
      returnValues := none }

/-- Decimal digit list of a natural number, rendered with `Nat.digitChar`;
used to print placeholder alias numbers. -/
def natLit (n : Nat) : List Char :=
  if _h : n < 10 then [Nat.digitChar n]
  else natLit (n / 10) ++ [Nat.digitChar (n % 10)]
termination_by n
decreasing_by exact Nat.div_lt_self (by omega) (by decide)

/-- Modelled from the spec: the textual name alias for the i-th distinct
attribute path of one compilation (aliases `#n0`, `#n1`, ...). -/
def nameAlias (i : Nat) : String :=
  String.mk ('#' :: 'n' :: natLit i)

/-- Modelled from the spec: the textual value alias for the i-th referenced
literal value of one compilation (aliases `:v0`, `:v1`, ...). -/
def valueAlias (i : Nat) : String :=
  String.mk (':' :: 'v' :: natLit i)

/-- Modelled from the spec: the placeholder table of one compilation unit
(spec section 3): the accumulated alias-to-path and alias-to-value mappings
plus a monotonically increasing counter per kind. -/
structure PlaceholderTable where
  nameCounter : Nat
  valueCounter : Nat
  names : List (String × String)
  values : List (String × DbValue)
deriving DecidableEq, Repr

/-- The placeholder table a compile invocation starts from: empty maps,
both counters at zero. -/
def initPlaceholderTable : PlaceholderTable :=
  PlaceholderTable.mk 0 0 [] []

/-- Modelled from the spec: request an alias for an attribute path, reusing
the existing alias when the same path was already aliased within this
compilation (spec section 3: path aliases are deduplicated). -/
def getNameAlias (t : PlaceholderTable) (path : String) : String × PlaceholderTable :=
  match t.names.find? (fun pr => pr.2 == path) with
  | some pr => (pr.1, t)
  | none =>
      let a := nameAlias t.nameCounter
      (a, { t with nameCounter := t.nameCounter + 1, names := t.names ++ [(a, path)] })

/-- Modelled from the spec: request an alias for a literal value; every
occurrence gets a fresh alias, never deduplicated (spec section 3). -/
def getValueAlias (t : PlaceholderTable) (v : DbValue) : String × PlaceholderTable :=
  let a := valueAlias t.valueCounter
  (a, { t with valueCounter := t.valueCounter + 1, values := t.values ++ [(a, v)] })

/-- Whether a node is a nested group; a group child is always wrapped in
explicit parentheses on render (spec section 4.2). -/
def ExprNode.isGroup : ExprNode → Bool
  | .group _ => true
  | _ => false

/-- Whether a node is a group with more than one entry; `Not` parenthesizes
its child exactly in that case (spec section 4.2). -/
def ExprNode.isMultiGroup : ExprNode → Bool
  | .group (.cons _ _ (.cons _ _ _)) => true
  | _ => false

/-- Wrap the rendering of a child in parentheses when the child is a nested
group (spec sections 4.2 and 4.3 step 1). -/
def parenthesizeChild (e : ExprNode) (s : String) : String :=
  if e.isGroup then "(" ++ s ++ ")" else s

mutual
/-- Modelled from the spec: render one condition node to a text fragment,
threading the placeholder table (spec section 4.3 steps 1-2): each path
reference requests a (deduplicated) name alias, each literal value a fresh
value alias. -/
def compileExpr : ExprNode → PlaceholderTable → String × PlaceholderTable
  | .comparator path o v, t =>
      let r1 := getNameAlias t path
      let r2 := getValueAlias r1.2 v
      (r1.1 ++ " " ++ o.render ++ " " ++ r2.1, r2.2)
  | .attributeFunction path f, t =>
      let r1 := getNameAlias t path
      (f.render ++ "(" ++ r1.1 ++ ")", r1.2)
  | .beginsWith path s, t =>
      let r1 := getNameAlias t path
      let r2 := getValueAlias r1.2 (DbValue.str s)
      ("begins_with(" ++ r1.1 ++ ", " ++ r2.1 ++ ")", r2.2)
  | .containsCond path v, t =>
      let r1 := getNameAlias t path
      let r2 := getValueAlias r1.2 v
      ("contains(" ++ r1.1 ++ ", " ++ r2.1 ++ ")", r2.2)
  | .between path lo hi, t =>
      let r1 := getNameAlias t path
      let r2 := getValueAlias r1.2 lo
      let r3 := getValueAlias r2.2 hi
      (r1.1 ++ " BETWEEN " ++ r2.1 ++ " AND " ++ r3.1, r3.2)
  | .notCond child, t =>
      let r := compileExpr child t
      ("NOT " ++ (if child.isMultiGroup then "(" ++ r.1 ++ ")" else r.1), r.2)
  | .group children, t => compileSeq children t
/-- Modelled from the spec: render a condition group by rendering its first
child without its connector (the compiler ignores the first entry's
connector, spec section 3 invariant) and folding the remaining children with
their connector keywords via `compileSeqTail`. -/
def compileSeq : ExprSeq → PlaceholderTable → String × PlaceholderTable
  | .nil, t => ("", t)
  | .cons _ e rest, t =>
      let r := compileExpr e t
      compileSeqTail rest (parenthesizeChild e r.1) r.2
/-- Modelled from the spec: fold the non-first children of a group onto the
accumulated fragment, each introduced by its connector keyword. -/
def compileSeqTail : ExprSeq → String → PlaceholderTable → String × PlaceholderTable
  | .nil, acc, t => (acc, t)
  | .cons c e rest, acc, t =>
      let r := compileExpr e t
      compileSeqTail rest (acc ++ " " ++ c.render ++ " " ++ parenthesizeChild e r.1) r.2
end

mutual
/-- Number of literal-value references in one condition node; this is the N
of the value-alias uniqueness property (spec section 8). -/
def countValues : ExprNode → Nat
  | .comparator _ _ _ => 1
  | .attributeFunction _ _ => 0
  | .beginsWith _ _ => 1
  | .containsCond _ _ => 1
  | .between _ _ _ => 2
  | .notCond child => countValues child
  | .group children => countValuesSeq children
/-- Number of literal-value references in a condition group. -/
def countValuesSeq : ExprSeq → Nat
  | .nil => 0
  | .cons _ e rest => countValues e + countValuesSeq rest
end

/-- Modelled from the spec: the store command shape produced by one compile
invocation (spec section 6). -/
structure Command where
  TableName : String
  ConditionExpression : Option String
  UpdateExpression : Option String
  ExpressionAttributeNames : Option (List (String × String))
  ExpressionAttributeValues : Option (List (String × DbValue))
  Item : Option (List (String × DbValue))
  ReturnValues : ReturnValuesOptions
deriving Repr

/-- Modelled from the spec: compile a put AST starting from a given
placeholder table (spec section 4.3 step 4): condition text (absent when the
condition tree is empty), the accumulated maps (absent when empty), the table
identifier, the item payload verbatim, and the return-values selector or the
default NONE when unset. A put operation carries no update expression. -/
def compilePutFrom (t0 : PlaceholderTable) (n : PutNode) : Command :=
  let r := compileSeq n.conditionExpression.expressions t0
  { TableName := n.table.table
    ConditionExpression :=
      match n.conditionExpression.expressions with
      | .nil => none
      | .cons _ _ _ => some r.1
    UpdateExpression := none
    ExpressionAttributeNames := if r.2.names.isEmpty then none else some r.2.names
    ExpressionAttributeValues := if r.2.values.isEmpty then none else some r.2.values
    Item := n.item.map ItemNode.item
    ReturnValues :=
      match n.returnValues with
      | some rv => rv.option
      | none => ReturnValuesOptions.NONE }

/-- Modelled from the spec: the query compiler's `compile(node) -> Command`
(`src/queryCompiler.ts` is not under `src/`). Each invocation creates a fresh
placeholder table (both counters at zero) that is discarded after rendering
(spec section 3, lifecycle). -/
def QueryCompiler.compile (n : PutNode) : Command :=
  compilePutFrom initPlaceholderTable n

/-- From `src/unnamed/part_000` lines 250-252: `compile` delegates to the
query compiler applied to exactly the builder's accumulated node. -/
def PutItemQueryBuilder.compile (b : PutItemQueryBuilder) : Command :=
  QueryCompiler.compile b.node

/-- A heap of builder values; a JavaScript object reference is an index into
this store. Method calls allocate (`new PutItemQueryBuilder(...)`) and never
assign into an existing object (the props field is `readonly` and only read),
which `allocOp` makes explicit. -/
abbrev BuilderStore : Type :=
  List PutItemQueryBuilder

/-- One builder method call seen at the heap level: read the receiver at its
reference, allocate the new builder produced by the (pure) method body at a
fresh reference, and return that reference; a dangling reference is returned
unchanged. -/
def allocOp (f : PutItemQueryBuilder → PutItemQueryBuilder) (s : BuilderStore) (r : Nat) :
    BuilderStore × Nat :=
  match (List.get? s r) with
  | some b => (s ++ [f b], s.length)
  | none => (s, r)

/-- The `compile` call seen at the heap level: it only reads the receiver and
returns a command value; the store is untouched. -/
def compileViaStore (s : BuilderStore) (r : Nat) : BuilderStore × Option Command :=
  (s, (List.get? s r).map PutItemQueryBuilder.compile)

/-- Modelled from the spec: the message installed by `preventAwait` on the
put builder class (`src/util/preventAwait.ts` is not under `src/`; the
message is the one passed at `src/unnamed/part_000` lines 265-268). -/
def putPreventAwaitMessage : String :=
  "Don\x27t await PutQueryBuilder instances directly. To execute the query you need to call the `execute` method"

/-- Modelled from the spec: using a builder where a completed result is
expected (treating it as a thenable / awaiting it) hits the runtime guard
installed by `preventAwait` and raises the descriptive error instead of
resolving to a value (spec section 7). -/
def awaitPutItemQueryBuilder (_b : PutItemQueryBuilder) :
    Except String (Option (List (String × DbValue))) :=
  Except.error putPreventAwaitMessage

/-- Modelled from the spec: a set entry's value expression: a literal, an
arithmetic increment/decrement over another path, or a list-append (spec
section 3, Update Node). -/
inductive SetValueExpr where
  | literal (v : DbValue)
  | increment (otherPath : String) (v : DbValue)
  | decrement (otherPath : String) (v : DbValue)
  | listAppend (otherPath : String) (v : DbValue)
deriving DecidableEq, Repr

/-- Modelled from the spec: one `Set(path, valueExpr)` update entry
(`src/nodes/setUpdateExpression.ts` is not under `src/`). -/
structure SetUpdateExpression where
  path : String
  value : SetValueExpr
deriving DecidableEq, Repr

/-- Modelled from the spec: one `Remove(path)` update entry
(`src/nodes/removeUpdateExpression.ts` is not under `src/`). -/
structure RemoveUpdateExpression where
  path : String
deriving DecidableEq, Repr

/-- Modelled from the spec: one `Add(path, numericOrSetValue)` update entry
(`src/nodes/addUpdateExpression.ts` is not under `src/`). -/
structure AddUpdateExpression where
  path : String
  value : DbValue
deriving DecidableEq, Repr

/-- From `src/nodes/updateExpression.ts`: the update AST holds exactly three
independent ordered sequences, one per update kind. -/
structure UpdateExpression where
  setUpdateExpressions : List SetUpdateExpression
  removeUpdateExpressions : List RemoveUpdateExpression
  addUpdateExpressions : List AddUpdateExpression
deriving DecidableEq, Repr

/-- Modelled from the spec: the `set` builder call simply appends to the set
sequence (spec section 4.2). -/
def UpdateExpression.set (u : UpdateExpression) (e : SetUpdateExpression) : UpdateExpression :=
  { u with setUpdateExpressions := u.setUpdateExpressions ++ [e] }

/-- Modelled from the spec: the `remove` builder call simply appends to the
remove sequence (spec section 4.2). -/
def UpdateExpression.remove (u : UpdateExpression) (e : RemoveUpdateExpression) :
    UpdateExpression :=
  { u with removeUpdateExpressions := u.removeUpdateExpressions ++ [e] }

/-- Modelled from the spec: the `add` builder call simply appends to the add
sequence (spec section 4.2). -/
def UpdateExpression.add (u : UpdateExpression) (e : AddUpdateExpression) : UpdateExpression :=
  { u with addUpdateExpressions := u.addUpdateExpressions ++ [e] }

/-- The three update clause kinds of the wire format. -/
inductive UpdateKind where
  | set
  | remove
  | add
deriving DecidableEq, Repr

/-- Modelled from the spec: which clauses one update AST emits, in the fixed
keyword order SET, REMOVE, ADD, omitting any clause whose sequence is empty
(spec section 4.3 step 3). -/
def updateClauseKinds (u : UpdateExpression) : List UpdateKind :=
  (if u.setUpdateExpressions.isEmpty then [] else [UpdateKind.set]) ++
    (if u.removeUpdateExpressions.isEmpty then [] else [UpdateKind.remove]) ++
      (if u.addUpdateExpressions.isEmpty then [] else [UpdateKind.add])

/-- The builder states reachable through the statically-typed put-builder
interface: the fresh builder from the query creator, extended by the four
modifying calls, where `returnValues` may only be invoked with NONE or
ALL_OLD (the `Extract` narrowing in the interface, `src/unnamed/part_000`
lines 132-134 and 235-237). -/
inductive TypedReachable : PutItemQueryBuilder → Prop where
  | start (table : String) : TypedReachable (putItemFrom table)
  | condStep (b : PutItemQueryBuilder) (args : ExprArgs) :
      TypedReachable b → TypedReachable (b.conditionExpression args)
  | orCondStep (b : PutItemQueryBuilder) (args : ExprArgs) :
      TypedReachable b → TypedReachable (b.orConditionExpression args)
  | itemStep (b : PutItemQueryBuilder) (it : List (String × DbValue)) :
      TypedReachable b → TypedReachable (b.item it)
  | returnValuesStep (b : PutItemQueryBuilder) (o : ReturnValuesOptions)
      (ho : o = ReturnValuesOptions.NONE ∨ o = ReturnValuesOptions.ALL_OLD) :
      TypedReachable b → TypedReachable (b.returnValues o)

/-- What one heap-level builder call preserves: the receiver's slot is left
exactly as it was (so the receiver's node is unchanged and the receiver stays
usable), the returned reference is a new one, and the new reference holds the
builder produced by the pure method body. -/
def allocPreserves (f : PutItemQueryBuilder → PutItemQueryBuilder) (s : BuilderStore)
    (r : Nat) : Prop :=
  List.get? (allocOp f s r).1 r = List.get? s r ∧
    (allocOp f s r).2 ≠ r ∧
    List.get? (allocOp f s r).1 (allocOp f s r).2 = (List.get? s r).map f

/-! ## Theorems -/

theorem natLit_ne_nil (n : Nat) : natLit n ≠ [] := by
  rw [natLit]
  split
  · simp
  · simp

theorem digitChar_inj_lt : ∀ a < 10, ∀ b < 10, Nat.digitChar a = Nat.digitChar b → a = b := by
  decide

theorem natLit_inj (a : Nat) : ∀ b : Nat, natLit a = natLit b → a = b := by
  induction a using Nat.strong_induction_on with
  | _ a ih =>
    intro b h
    rw [natLit.eq_def a, natLit.eq_def b] at h
    by_cases ha : a < 10 <;> by_cases hb : b < 10
    · rw [dif_pos ha, dif_pos hb] at h
      exact digitChar_inj_lt a ha b hb (List.singleton_injective h)
    · rw [dif_pos ha, dif_neg hb] at h
      have hlen := congrArg List.length h
      simp only [List.length_singleton, List.length_append] at hlen
      have h0 : (natLit (b / 10)).length = 0 := by omega
      exact absurd (List.length_eq_zero.mp h0) (natLit_ne_nil (b / 10))
    · rw [dif_neg ha, dif_pos hb] at h
      have hlen := congrArg List.length h
      simp only [List.length_singleton, List.length_append] at hlen
      have h0 : (natLit (a / 10)).length = 0 := by omega
      exact absurd (List.length_eq_zero.mp h0) (natLit_ne_nil (a / 10))
    · rw [dif_neg ha, dif_neg hb] at h
      obtain ⟨h1, h2⟩ := List.append_inj' h rfl
      have hdiv : a / 10 = b / 10 :=
        ih (a / 10) (Nat.div_lt_self (by omega) (by decide)) (b / 10) h1
      have hmod : a % 10 = b % 10 :=
        digitChar_inj_lt (a % 10) (Nat.mod_lt a (by omega)) (b % 10)
          (Nat.mod_lt b (by omega)) (List.singleton_injective h2)
      omega

theorem valueAlias_inj : Function.Injective valueAlias := by
  intro a b h
  apply natLit_inj
  have hd := congrArg String.data h
  simpa [valueAlias] using hd

theorem range'_split (c k1 k2 : Nat) :
    List.range' c (k1 + k2) = List.range' c k1 ++ List.range' (c + k1) k2 := by
  rw [Nat.add_comm k1 k2]
  have h := List.range'_append c k1 k2 1
  simpa using h.symm

theorem getNameAlias_values (t : PlaceholderTable) (p : String) :
    (getNameAlias t p).2.valueCounter = t.valueCounter ∧
      (getNameAlias t p).2.values = t.values := by
  unfold getNameAlias
  cases h : t.names.find? (fun pr => pr.2 == p) <;> simp [h]

theorem getValueAlias_values (t : PlaceholderTable) (v : DbValue) :
    (getValueAlias t v).2.valueCounter = t.valueCounter + 1 ∧
      (getValueAlias t v).2.values = t.values ++ [(valueAlias t.valueCounter, v)] := by
  simp [getValueAlias]

mutual
theorem compileExpr_valueKeys (e : ExprNode) (t : PlaceholderTable) :
    (compileExpr e t).2.valueCounter = t.valueCounter + countValues e ∧
      (compileExpr e t).2.values.map Prod.fst
        = t.values.map Prod.fst
          ++ (List.range' t.valueCounter (countValues e)).map valueAlias := by
  cases e with
  | comparator path o v =>
      obtain ⟨hc1, hv1⟩ := getNameAlias_values t path
      obtain ⟨hc2, hv2⟩ := getValueAlias_values (getNameAlias t path).2 v
      refine ⟨?_, ?_⟩
      · simp only [compileExpr, countValues]
        rw [hc2, hc1]
      · simp only [compileExpr, countValues]
        rw [hv2, hv1, hc1]
        simp [List.range'_one]
  | attributeFunction path f =>
      obtain ⟨hc1, hv1⟩ := getNameAlias_values t path
      refine ⟨?_, ?_⟩
      · simp only [compileExpr, countValues]
        rw [hc1]
        omega
      · simp only [compileExpr, countValues]
        rw [hv1]
        simp
  | beginsWith path s =>
      obtain ⟨hc1, hv1⟩ := getNameAlias_values t path
      obtain ⟨hc2, hv2⟩ := getValueAlias_values (getNameAlias t path).2 (DbValue.str s)
      refine ⟨?_, ?_⟩
      · simp only [compileExpr, countValues]
        rw [hc2, hc1]
      · simp only [compileExpr, countValues]
        rw [hv2, hv1, hc1]
        simp [List.range'_one]
  | containsCond path v =>
      obtain ⟨hc1, hv1⟩ := getNameAlias_values t path
      obtain ⟨hc2, hv2⟩ := getValueAlias_values (getNameAlias t path).2 v
      refine ⟨?_, ?_⟩
      · simp only [compileExpr, countValues]
        rw [hc2, hc1]
      · simp only [compileExpr, countValues]
        rw [hv2, hv1, hc1]
        simp [List.range'_one]
  | between path lo hi =>
      obtain ⟨hc1, hv1⟩ := getNameAlias_values t path
      obtain ⟨hc2, hv2⟩ := getValueAlias_values (getNameAlias t path).2 lo
      obtain ⟨hc3, hv3⟩ := getValueAlias_values (getValueAlias (getNameAlias t path).2 lo).2 hi
      refine ⟨?_, ?_⟩
      · simp only [compileExpr, countValues]
        rw [hc3, hc2, hc1]
      · simp only [compileExpr, countValues]
        rw [hv3, hv2, hv1, hc2, hc1]
        have : List.range' t.valueCounter 2 = [t.valueCounter, t.valueCounter + 1] := by
          simp [List.range']
        rw [this]
        simp
  | notCond child =>
      have h := compileExpr_valueKeys child t
      refine ⟨?_, ?_⟩
      · simp only [compileExpr, countValues]
        exact h.1
      · simp only [compileExpr, countValues]
        exact h.2
  | group children =>
      have h := compileSeq_valueKeys children t
      refine ⟨?_, ?_⟩
      · simp only [compileExpr, countValues]
        exact h.1
      · simp only [compileExpr, countValues]
        exact h.2

theorem compileSeq_valueKeys (l : ExprSeq) (t : PlaceholderTable) :
    (compileSeq l t).2.valueCounter = t.valueCounter + countValuesSeq l ∧
      (compileSeq l t).2.values.map Prod.fst
        = t.values.map Prod.fst
          ++ (List.range' t.valueCounter (countValuesSeq l)).map valueAlias := by
  cases l with
  | nil => simp [compileSeq, countValuesSeq]
  | cons c e rest =>
      have h1 := compileExpr_valueKeys e t
      have h2 := compileSeqTail_valueKeys rest (parenthesizeChild e (compileExpr e t).1)
        (compileExpr e t).2
      refine ⟨?_, ?_⟩
      · simp only [compileSeq, countValuesSeq]
        rw [h2.1, h1.1, Nat.add_assoc]
      · simp only [compileSeq, countValuesSeq]
        rw [h2.2, h1.2, h1.1, range'_split, List.map_append, List.append_assoc]

theorem compileSeqTail_valueKeys (l : ExprSeq) (acc : String) (t : PlaceholderTable) :
    (compileSeqTail l acc t).2.valueCounter = t.valueCounter + countValuesSeq l ∧
      (compileSeqTail l acc t).2.values.map Prod.fst
        = t.values.map Prod.fst
          ++ (List.range' t.valueCounter (countValuesSeq l)).map valueAlias := by
  cases l with
  | nil => simp [compileSeqTail, countValuesSeq]
  | cons c e rest =>
      have h1 := compileExpr_valueKeys e t
      have h2 := compileSeqTail_valueKeys rest
        (acc ++ " " ++ c.render ++ " " ++ parenthesizeChild e (compileExpr e t).1)
        (compileExpr e t).2
      refine ⟨?_, ?_⟩
      · simp only [compileSeqTail, countValuesSeq]
        rw [h2.1, h1.1, Nat.add_assoc]
      · simp only [compileSeqTail, countValuesSeq]
        rw [h2.2, h1.2, h1.1, range'_split, List.map_append, List.append_assoc]
end

theorem allocOp_preserves (f : PutItemQueryBuilder → PutItemQueryBuilder)
    (s : BuilderStore) (r : Nat) (h : r < s.length) : allocPreserves f s r := by
  have hg := List.get?_eq_get h
  have ha : allocOp f s r = (s ++ [f (s.get ⟨r, h⟩)], s.length) := by
    rw [allocOp, hg]
  refine ⟨?_, ?_, ?_⟩
  · rw [ha]
    exact List.get?_append h
  · rw [ha]
    omega
  · rw [ha, hg]
    simp [List.get?_concat_length]

/-- C1: every modifying call on a put-item builder (`conditionExpression`,
`orConditionExpression`, `item`, `returnValues`) returns a new builder
instance (a fresh heap reference) and leaves the receiver builder's slot, and
hence its node, unchanged, so the receiver remains usable. -/
theorem builder_calls_return_new_instance (s : BuilderStore) (r : Nat) (args : ExprArgs)
    (it : List (String × DbValue)) (o : ReturnValuesOptions) (h : r < s.length) :
    allocPreserves (fun b => b.conditionExpression args) s r ∧
      allocPreserves (fun b => b.orConditionExpression args) s r ∧
      allocPreserves (fun b => b.item it) s r ∧
      allocPreserves (fun b => b.returnValues o) s r :=
  ⟨allocOp_preserves _ s r h, allocOp_preserves _ s r h, allocOp_preserves _ s r h,
    allocOp_preserves _ s r h⟩

theorem builder_calls_return_new_instance_witness :
    0 < ([putItemFrom "myTable"] : BuilderStore).length ∧
      (allocPreserves
          (fun b => b.conditionExpression
            (ExprArgs.attributeFuncArg "userId" AttributeFn.attributeNotExists))
          [putItemFrom "myTable"] 0 ∧
        allocPreserves (fun b => b.orConditionExpression
            (ExprArgs.attributeFuncArg "userId" AttributeFn.attributeNotExists))
          [putItemFrom "myTable"] 0 ∧
        allocPreserves (fun b => b.item [("userId", DbValue.str "333")])
          [putItemFrom "myTable"] 0 ∧
        allocPreserves (fun b => b.returnValues ReturnValuesOptions.ALL_OLD)
          [putItemFrom "myTable"] 0) :=
  ⟨by decide,
    builder_calls_return_new_instance [putItemFrom "myTable"] 0
      (ExprArgs.attributeFuncArg "userId" AttributeFn.attributeNotExists)
      [("userId", DbValue.str "333")] ReturnValuesOptions.ALL_OLD (by decide)⟩

/-- C2: for every selector of the five-valued return-values enum, storing it
through `returnValues` and compiling yields a command whose `ReturnValues`
field is the selector verbatim; and when `returnValues` was never called
(the node's selector is unset) the compiled field is NONE. -/
theorem returnValues_roundtrip (b : PutItemQueryBuilder) (o : ReturnValuesOptions) :
    ((b.returnValues o).compile).ReturnValues = o ∧
      (b.node.returnValues = none →
        b.compile.ReturnValues = ReturnValuesOptions.NONE) := by
  constructor
  · rfl
  · intro h
    simp [PutItemQueryBuilder.compile, QueryCompiler.compile, compilePutFrom, h]

theorem returnValues_roundtrip_witness :
    (((putItemFrom "t").returnValues ReturnValuesOptions.UPDATED_NEW).compile).ReturnValues
        = ReturnValuesOptions.UPDATED_NEW ∧
      (putItemFrom "t").node.returnValues = none ∧
      (putItemFrom "t").compile.ReturnValues = ReturnValuesOptions.NONE :=
  ⟨(returnValues_roundtrip (putItemFrom "t") ReturnValuesOptions.UPDATED_NEW).1, rfl,
    (returnValues_roundtrip (putItemFrom "t") ReturnValuesOptions.UPDATED_NEW).2 rfl⟩

/-- C3: using a builder where a completed result is expected (treating it as
a thenable / awaiting it) raises the guard's error rather than resolving to a
value, and the error message directs the caller to the `execute` method (the
word `execute` occurs in it). -/
theorem builder_await_guard (b : PutItemQueryBuilder) :
    awaitPutItemQueryBuilder b = Except.error putPreventAwaitMessage ∧
      ∃ front back : String, putPreventAwaitMessage = front ++ "execute" ++ back :=
  ⟨rfl,
    ⟨"Don\x27t await PutQueryBuilder instances directly. To ",
      " the query you need to call the `execute` method", by rfl⟩⟩

/-- C4: the update AST holds exactly three independent ordered sequences, one
per kind; `set`, `remove` and `add` each append only to their own kind's
sequence and leave the other two untouched, and the emitted clause kinds are
at most one per kind (no duplicates), in the fixed SET, REMOVE, ADD order, so
entries of different kinds are never mixed into one clause. -/
theorem update_sequences_independent (u : UpdateExpression) (se : SetUpdateExpression)
    (re : RemoveUpdateExpression) (ae : AddUpdateExpression) :
    ((u.set se).setUpdateExpressions = u.setUpdateExpressions ++ [se] ∧
        (u.set se).removeUpdateExpressions = u.removeUpdateExpressions ∧
        (u.set se).addUpdateExpressions = u.addUpdateExpressions) ∧
      ((u.remove re).removeUpdateExpressions = u.removeUpdateExpressions ++ [re] ∧
        (u.remove re).setUpdateExpressions = u.setUpdateExpressions ∧
        (u.remove re).addUpdateExpressions = u.addUpdateExpressions) ∧
      ((u.add ae).addUpdateExpressions = u.addUpdateExpressions ++ [ae] ∧
        (u.add ae).setUpdateExpressions = u.setUpdateExpressions ∧
        (u.add ae).removeUpdateExpressions = u.removeUpdateExpressions) ∧
      (updateClauseKinds u).Nodup ∧
      (updateClauseKinds u).Sublist [UpdateKind.set, UpdateKind.remove, UpdateKind.add] := by
  refine ⟨⟨rfl, rfl, rfl⟩, ⟨rfl, rfl, rfl⟩, ⟨rfl, rfl, rfl⟩, ?_, ?_⟩ <;>
    · cases hs : u.setUpdateExpressions.isEmpty <;>
        cases hr : u.removeUpdateExpressions.isEmpty <;>
          cases ha : u.addUpdateExpressions.isEmpty <;>
            simp [updateClauseKinds, hs, hr, ha]

/-- C5: `conditionExpression` appends the condition node built from the
arguments to the current group with connector AND, `orConditionExpression`
appends it with connector OR, and the first entry's connector of a group has
no effect on the compiled output (the compiler ignores it), so on an empty
group the first node's connector is semantically irrelevant. -/
theorem condition_connectors (b : PutItemQueryBuilder) (args : ExprArgs)
    (c1 c2 : JoinType) (e : ExprNode) (rest : ExprSeq) (t : PlaceholderTable) :
    (b.conditionExpression args).node.conditionExpression.expressions
        = b.node.conditionExpression.expressions.append
            (ExprSeq.cons JoinType.and (argsToNode args) ExprSeq.nil) ∧
      (b.orConditionExpression args).node.conditionExpression.expressions
        = b.node.conditionExpression.expressions.append
            (ExprSeq.cons JoinType.or (argsToNode args) ExprSeq.nil) ∧
      compileSeq (ExprSeq.cons c1 e rest) t = compileSeq (ExprSeq.cons c2 e rest) t := by
  refine ⟨rfl, rfl, ?_⟩
  simp only [compileSeq]

/-- C6: the builder's `compile` produces the command by applying the query
compiler to exactly the builder's accumulated AST node, with no other inputs,
and the heap (hence the node) is not modified by compiling. -/
theorem compile_applies_compiler_to_node (s : BuilderStore) (r : Nat)
    (b : PutItemQueryBuilder) (h : List.get? s r = some b) :
    compileViaStore s r = (s, some (QueryCompiler.compile b.node)) := by
  unfold compileViaStore
  rw [h]
  rfl

theorem compile_applies_compiler_to_node_witness :
    List.get? ([putItemFrom "t"] : BuilderStore) 0 = some (putItemFrom "t") ∧
      compileViaStore [putItemFrom "t"] 0
        = ([putItemFrom "t"], some (QueryCompiler.compile (putItemFrom "t").node)) :=
  ⟨rfl, compile_applies_compiler_to_node [putItemFrom "t"] 0 (putItemFrom "t") rfl⟩

/-- C7: compilation is deterministic: two compile invocations on the same AST
yield identical command output, and each invocation starts from the fresh
placeholder table whose alias counters are zero and whose maps are empty. -/
theorem compile_deterministic (n : PutNode) :
    QueryCompiler.compile n = QueryCompiler.compile n ∧
      QueryCompiler.compile n = compilePutFrom initPlaceholderTable n ∧
      initPlaceholderTable.nameCounter = 0 ∧
      initPlaceholderTable.valueCounter = 0 ∧
      initPlaceholderTable.names = [] ∧
      initPlaceholderTable.values = [] :=
  ⟨rfl, rfl, rfl, rfl, rfl, rfl⟩

/-- C8: for every AST, if its condition tree references literal values N
times (even when some referenced values are equal), the compiled value map
contains exactly N entries and their aliases are pairwise distinct — value
aliases are never deduplicated within one compilation. -/
theorem value_alias_uniqueness (n : PutNode) :
    ((QueryCompiler.compile n).ExpressionAttributeValues.getD []).length
        = countValuesSeq n.conditionExpression.expressions ∧
      (((QueryCompiler.compile n).ExpressionAttributeValues.getD []).map Prod.fst).Nodup := by
  have hkeys := (compileSeq_valueKeys n.conditionExpression.expressions initPlaceholderTable).2
  have hv0 : initPlaceholderTable.values = [] := rfl
  have hc0 : initPlaceholderTable.valueCounter = 0 := rfl
  rw [hv0, hc0] at hkeys
  simp only [List.map_nil, List.nil_append] at hkeys
  have hlen := congrArg List.length hkeys
  simp only [List.length_map, List.length_range'] at hlen
  have hval : (QueryCompiler.compile n).ExpressionAttributeValues
      = if (compileSeq n.conditionExpression.expressions initPlaceholderTable).2.values.isEmpty
        then none
        else some (compileSeq n.conditionExpression.expressions initPlaceholderTable).2.values :=
    rfl
  rw [hval]
  cases hemp : (compileSeq n.conditionExpression.expressions initPlaceholderTable).2.values.isEmpty
  · constructor
    · simpa using hlen
    · simp only [Bool.false_eq_true, if_false, Option.getD_some]
      rw [hkeys]
      exact List.Nodup.map valueAlias_inj (List.nodup_range' _ _)
  · have hnil : (compileSeq n.conditionExpression.expressions initPlaceholderTable).2.values
        = [] := List.isEmpty_iff.mp hemp
    rw [hnil] at hlen
    simp only [List.length_nil] at hlen
    constructor
    · simp only [if_true, Option.getD_none, List.length_nil]
      omega
    · simp

/-- C9: the put-item builder's `returnValues` operation statically accepts
only the selectors NONE and ALL_OLD (the `Extract` narrowing of the
five-valued enum in the interface), so on every builder reachable through the
typed interface any stored return-values option is one of these two
values. -/
theorem putItem_returnValues_subset (b : PutItemQueryBuilder) (h : TypedReachable b) :
    ∀ rv : ReturnValuesNode, b.node.returnValues = some rv →
      rv.option = ReturnValuesOptions.NONE ∨ rv.option = ReturnValuesOptions.ALL_OLD := by
  induction h with
  | start table =>
      intro rv hrv
      simp [putItemFrom] at hrv
  | condStep b args hb ih =>
      intro rv hrv
      exact ih rv hrv
  | orCondStep b args hb ih =>
      intro rv hrv
      exact ih rv hrv
  | itemStep b it hb ih =>
      intro rv hrv
      exact ih rv hrv
  | returnValuesStep b o ho hb ih =>
      intro rv hrv
      have h2 : some (ReturnValuesNode.mk o) = some rv := hrv
      have h3 : rv = ReturnValuesNode.mk o := (Option.some_injective _ h2).symm
      subst h3
      exact ho

theorem putItem_returnValues_subset_witness :
    TypedReachable ((putItemFrom "t").returnValues ReturnValuesOptions.ALL_OLD) ∧
      ((putItemFrom "t").returnValues ReturnValuesOptions.ALL_OLD).node.returnValues
        = some (ReturnValuesNode.mk ReturnValuesOptions.ALL_OLD) ∧
      ((ReturnValuesNode.mk ReturnValuesOptions.ALL_OLD).option = ReturnValuesOptions.NONE ∨
        (ReturnValuesNode.mk ReturnValuesOptions.ALL_OLD).option
          = ReturnValuesOptions.ALL_OLD) :=
  ⟨TypedReachable.returnValuesStep (putItemFrom "t") ReturnValuesOptions.ALL_OLD
      (Or.inr rfl) (TypedReachable.start "t"),
    rfl,
    putItem_returnValues_subset
      ((putItemFrom "t").returnValues ReturnValuesOptions.ALL_OLD)
      (TypedReachable.returnValuesStep (putItemFrom "t") ReturnValuesOptions.ALL_OLD
        (Or.inr rfl) (TypedReachable.start "t"))
      (ReturnValuesNode.mk ReturnValuesOptions.ALL_OLD) rfl⟩

/-- C10: each put-item setter updates exactly one field of the node: `item`
only the item field, `returnValues` only the return-values field,
`conditionExpression` and `orConditionExpression` only the condition
expression field; all other node fields, the table identifier included, are
carried over unchanged into the new builder's node. -/
theorem setters_update_single_field (b : PutItemQueryBuilder) (args : ExprArgs)
    (it : List (String × DbValue)) (o : ReturnValuesOptions) :
    ((b.item it).node.table = b.node.table ∧
        (b.item it).node.conditionExpression = b.node.conditionExpression ∧
        (b.item it).node.returnValues = b.node.returnValues ∧
        (b.item it).node.item = some (ItemNode.mk it)) ∧
      ((b.returnValues o).node.table = b.node.table ∧
        (b.returnValues o).node.conditionExpression = b.node.conditionExpression ∧
        (b.returnValues o).node.item = b.node.item ∧
        (b.returnValues o).node.returnValues = some (ReturnValuesNode.mk o)) ∧
      ((b.conditionExpression args).node.table = b.node.table ∧
        (b.conditionExpression args).node.item = b.node.item ∧
        (b.conditionExpression args).node.returnValues = b.node.returnValues) ∧
      ((b.orConditionExpression args).node.table = b.node.table ∧
        (b.orConditionExpression args).node.item = b.node.item ∧
        (b.orConditionExpression args).node.returnValues = b.node.returnValues) :=
  ⟨⟨rfl, rfl, rfl, rfl⟩, ⟨rfl, rfl, rfl, rfl⟩, ⟨rfl, rfl, rfl⟩, ⟨rfl, rfl, rfl⟩⟩
